import Mathlib

/-!
# fast_pass reservation concurrency engine — shallow embedding

This file embeds the reservation concurrency engine of the fast_pass
repository (`src/reservation/reservation.service.ts`, its scheduler, and the
Prisma schema in `prisma/migrations/.../migration.sql`) and proves the spec
claims about it.

Modelling conventions:
* The durable store (PostgreSQL via Prisma) is an association-list database
  `Db`; a Prisma `$transaction` body is a function `Db → Except SvcError Db`,
  so a thrown exception rolls the database back by construction (the caller
  keeps the old `Db`), exactly like the interactive transaction in the code.
* The volatile store (Redis) is a `RedisState`: a key/value cache with TTLs
  plus the single list `queue:reservations` (head = oldest element, so
  `rpush` appends and `lpop` takes the head).
* The Lua script is a single atomic step (Redis executes `EVAL` atomically),
  which is also the content of claim C10.
* Timestamps are naturals (epoch milliseconds); ISO strings round-trip
  verbatim through `JSON.stringify` / `new Date`, so the embedding carries
  the number itself.
* Exception messages are short English tags standing for the Korean string
  literals of the source; the embedding preserves which distinct literal is
  thrown where.
* Nondeterministic inputs of the environment are explicit parameters:
  whether the Redlock acquisition succeeds (`lockAcquired`), the fresh UUID,
  the current time, and whether the durable transaction suffers a transient
  infrastructure failure (`infraOk` in `processNextReservation`).
-/

namespace FastPass

/-- Prisma enum `SeatStatus` (migration.sql). -/
inductive SeatStatus
  | AVAILABLE
  | HELD
  | OCCUPIED
deriving DecidableEq, Repr

/-- Prisma enum `ReservationStatus` (migration.sql). -/
inductive ResStatus
  | PENDING
  | CONFIRMED
  | CANCELLED
deriving DecidableEq, Repr

/-- Row of table `Seat` (id is the association-list key). -/
structure Seat where
  performanceId : String
  seatNumber : String
  status : SeatStatus
  version : Nat
deriving DecidableEq, Repr

/-- Row of table `Reservation` (id is the association-list key).
`reservedAt` and `paidAt` are epoch timestamps. -/
structure Reservation where
  userId : String
  seatId : String
  status : ResStatus
  reservedAt : Nat
  paidAt : Option Nat
deriving DecidableEq, Repr

/-- Row of table `Performance`, restricted to the column the engine
mutates. `availableSeats` is a database INTEGER, hence `Int`. -/
structure Performance where
  availableSeats : Int
deriving DecidableEq, Repr

/-- The durable store: the three tables the engine touches, as
association lists keyed by row id (primary keys are unique, so
well-formed databases have pairwise distinct keys). -/
structure Db where
  seats : List (String × Seat)
  reservations : List (String × Reservation)
  performances : List (String × Performance)
deriving DecidableEq, Repr

/-- The `ReservationQueueData` interface of reservation.service.ts:
one reservation intent as serialized into the Redis queue. -/
structure ReservationQueueData where
  id : String
  userId : String
  seatId : String
  reservedAt : Nat
deriving DecidableEq, Repr

/-- A Redis string value together with its remaining TTL in seconds. -/
structure CacheEntry where
  value : String
  ttl : Nat
deriving DecidableEq, Repr

/-- The volatile store: the seat-status cache keys and the single
`queue:reservations` list (head = oldest). -/
structure RedisState where
  cache : List (String × CacheEntry)
  queue : List ReservationQueueData
deriving DecidableEq, Repr

/-- The state visible to `ReservationService`: Redis plus the database. -/
structure ServiceState where
  redis : RedisState
  db : Db
deriving DecidableEq, Repr

/-- Exceptions thrown by the service.  `DbError` stands for the errors that
are not NestJS HTTP exceptions: Prisma constraint violations (P2002), rows
missing on `update` (P2025) and transient infrastructure failures. -/
inductive SvcError
  | NotFoundException (msg : String)
  | ConflictException (msg : String)
  | DbError (msg : String)
deriving DecidableEq, Repr

/-! ## Association-list primitives -/

/-- First binding of key `k`, like a SQL point read on a unique key. -/
def lookupKV {β : Type} : List (String × β) → String → Option β
  | [], _ => none
  | (k', v) :: rest, k => if k' = k then some v else lookupKV rest k

/-- Redis SET: overwrite the first binding of `k`, or append a fresh one. -/
def setKV {β : Type} : List (String × β) → String → β → List (String × β)
  | [], k, v => [(k, v)]
  | (k', v') :: rest, k, v =>
      if k' = k then (k, v) :: rest else (k', v') :: setKV rest k v

/-- SQL `UPDATE ... WHERE id = k`: rewrite every binding of key `k`. -/
def updateKV {β : Type} (l : List (String × β)) (k : String) (f : β → β) :
    List (String × β) :=
  l.map (fun p => if p.1 = k then (p.1, f p.2) else p)

/-! ## Exception message tags (for the Korean literals of the source) -/

def cacheConflictMsg : String := "already reserved (Cache)"
def dbConflictMsg : String := "already reserved (DB)"
def lockConflictMsg : String := "seat lock acquisition failed"
def seatNotFoundMsg : String := "seat not found"
def settleConflictMsg : String := "DB: already reserved"
def optimisticLockMsg : String := "DB: optimistic lock collision"
def resNotFoundMsg : String := "reservation not found"
def confirmOnlyPendingMsg : String := "only PENDING reservations can be confirmed"
def cancelOnlyPendingMsg : String := "only PENDING reservations can be cancelled"
def uniqueIdMsg : String := "unique constraint Reservation_pkey"
def uniqueSeatMsg : String := "unique constraint Reservation_seatId_key"
def perfRowMissingMsg : String := "performance row not found"
def seatRowMissingMsg : String := "seat row not found"
def transientMsg : String := "transient infrastructure failure"

/-- The Redis key `seat:<seatId>:status`. -/
def statusKey (seatId : String) : String :=
  "seat:" ++ seatId ++ ":status"

/-- Rendering of a durable `SeatStatus` as the cache string the service
writes (`redisClient.set(statusKey, seat.status, ...)`). -/
def statusString : SeatStatus → String
  | .AVAILABLE => "AVAILABLE"
  | .HELD => "HELD"
  | .OCCUPIED => "OCCUPIED"

/-! ## Admission path (`reserveSeat`, reservation.service.ts lines 55-180) -/

/-- Result of the Lua `reservationScript`. -/
inductive ScriptResult
  | OK
  | FAIL
  | MISS
deriving DecidableEq, Repr

/-- The Lua reservation script (lines 55-66), executed as one atomic Redis
step: read `KEYS[1]`; absent value returns MISS; a value other than
AVAILABLE returns FAIL; otherwise `rpush` the intent onto `KEYS[2]` and set
`KEYS[1]` to HELD with TTL `ARGV[2]`, returning OK. -/
def reservationScript (r : RedisState) (key : String)
    (data : ReservationQueueData) (ttl : Nat) : ScriptResult × RedisState :=
  match lookupKV r.cache key with
  | none => (.MISS, r)
  | some entry =>
      if entry.value ≠ "AVAILABLE" then (.FAIL, r)
      else
        let held : CacheEntry := { value := "HELD", ttl := ttl }
        (.OK, { cache := setKV r.cache key held, queue := r.queue ++ [data] })

/-- Outcome of an admission call: the provisional PENDING response (the
intent data, returned with `status: 'PENDING'`), or a thrown exception. -/
inductive ReserveOutcome
  | pending (data : ReservationQueueData)
  | rejected (e : SvcError)
deriving DecidableEq, Repr

/-- Step 1 of `reserveSeat` (lines 85-118): evaluate the Lua script; OK
returns the PENDING response, FAIL throws the cached-conflict
`ConflictException`, and MISS (`none` here) falls through to the slow
path. -/
def fastPathOutcome (data : ReservationQueueData) (st : ServiceState) :
    Option (ReserveOutcome × ServiceState) :=
  match reservationScript st.redis (statusKey data.seatId) data 600 with
  | (.OK, r') => some (.pending data, { st with redis := r' })
  | (.FAIL, _) => some (.rejected (.ConflictException cacheConflictMsg), st)
  | (.MISS, _) => none

/-- Step 2 of `reserveSeat` (lines 120-179), the locked slow path:
acquire the Redlock (retryCount 0, so contention throws a
`ConflictException` immediately); read the seat row; a missing row throws
NotFound; a non-AVAILABLE row warms the cache with the durable status and
throws the durable-conflict `ConflictException`; an AVAILABLE row appends
the intent to the queue, marks the cache HELD with a 600 second TTL and
returns the PENDING response. -/
def slowPath (lockAcquired : Bool) (data : ReservationQueueData)
    (st : ServiceState) : ReserveOutcome × ServiceState :=
  if lockAcquired then
    match lookupKV st.db.seats data.seatId with
    | none => (.rejected (.NotFoundException seatNotFoundMsg), st)
    | some seat =>
        if seat.status ≠ .AVAILABLE then
          let warmed : CacheEntry := { value := statusString seat.status, ttl := 600 }
          let cache' := setKV st.redis.cache (statusKey data.seatId) warmed
          (.rejected (.ConflictException dbConflictMsg),
           { st with redis := { st.redis with cache := cache' } })
        else
          let held : CacheEntry := { value := "HELD", ttl := 600 }
          let cache' := setKV st.redis.cache (statusKey data.seatId) held
          (.pending data,
           { st with redis :=
              { cache := cache', queue := st.redis.queue ++ [data] } })
  else (.rejected (.ConflictException lockConflictMsg), st)

/-- `reserveSeat` (lines 68-180): build the intent from a fresh UUID and
the current time, try the fast path, and fall back to the locked slow path
exactly on a cache miss. -/
def reserveSeat (lockAcquired : Bool) (rid : String) (now : Nat)
    (userId seatId : String) (st : ServiceState) :
    ReserveOutcome × ServiceState :=
  let data : ReservationQueueData :=
    { id := rid, userId := userId, seatId := seatId, reservedAt := now }
  match fastPathOutcome data st with
  | some res => res
  | none => slowPath lockAcquired data st

/-! ## Settlement worker (`processNextReservation`, lines 182-251) -/

/-- The seat row after the settlement conditional update. -/
def holdBump (s : Seat) : Seat :=
  { s with status := .HELD, version := s.version + 1 }

/-- The WHERE clause of the settlement `updateMany` (lines 203-213):
`id = seatId AND version = expectedVersion AND status = 'AVAILABLE'`. -/
def seatHoldWhere (seatId : String) (expectedVersion : Nat)
    (p : String × Seat) : Bool :=
  decide (p.1 = seatId ∧ p.2.version = expectedVersion ∧
          p.2.status = SeatStatus.AVAILABLE)

/-- `tx.seat.updateMany` of the settlement transaction: set every matching
row to HELD with version incremented, and report the number of affected
rows (`count`). -/
def seatUpdateManyHold (seats : List (String × Seat)) (seatId : String)
    (expectedVersion : Nat) : Nat × List (String × Seat) :=
  (seats.countP (seatHoldWhere seatId expectedVersion),
   seats.map (fun p =>
     if seatHoldWhere seatId expectedVersion p then (p.1, holdBump p.2) else p))

/-- `tx.reservation.create` (lines 223-231): inserting a new `Reservation`
row fails on the primary key `Reservation_pkey` when the intent id already
exists, and on the unique index `Reservation_seatId_key` (migration.sql)
when any existing reservation row — whatever its status — already
references the seat.  On success the row carries the intent id, the
requester, the seat, status PENDING and the verbatim intent timestamp. -/
def mkPendingRes (data : ReservationQueueData) : Reservation :=
  { userId := data.userId, seatId := data.seatId, status := .PENDING,
    reservedAt := data.reservedAt, paidAt := none }

def reservationCreate (rs : List (String × Reservation))
    (data : ReservationQueueData) :
    Except SvcError (List (String × Reservation)) :=
  if (lookupKV rs data.id).isSome then .error (.DbError uniqueIdMsg)
  else if rs.any (fun p => p.2.seatId = data.seatId) then
    .error (.DbError uniqueSeatMsg)
  else .ok (rs ++ [(data.id, mkPendingRes data)])

/-- `tx.performance.update` with `availableSeats: { increment/decrement }`:
Prisma `update` throws when the row is missing (`none` here). -/
def performanceUpdateAdd (ps : List (String × Performance)) (pid : String)
    (delta : Int) : Option (List (String × Performance)) :=
  match lookupKV ps pid with
  | none => none
  | some _ => some (updateKV ps pid (fun p =>
      { p with availableSeats := p.availableSeats + delta }))

/-- The settlement transaction body (lines 190-239): read the seat row
(step 1); missing row throws NotFound; a non-AVAILABLE row throws the
settlement `ConflictException` (step 2); the optimistic conditional update
(step 3) must affect a nonzero number of rows, else the optimistic-lock
`ConflictException` is thrown (step 4); then the durable Reservation is
created from the intent and the collection available-count is decremented
(step 5).  Any error rolls the whole transaction back. -/
def settleTx (data : ReservationQueueData) (db : Db) : Except SvcError Db :=
  match lookupKV db.seats data.seatId with
  | none => .error (.NotFoundException seatNotFoundMsg)
  | some seat =>
      if seat.status ≠ .AVAILABLE then .error (.ConflictException settleConflictMsg)
      else
        if (seatUpdateManyHold db.seats data.seatId seat.version).1 = 0 then
          .error (.ConflictException optimisticLockMsg)
        else
          match reservationCreate db.reservations data with
          | .error e => .error e
          | .ok rs' =>
              match performanceUpdateAdd db.performances seat.performanceId (-1) with
              | none => .error (.DbError perfRowMissingMsg)
              | some ps' =>
                  .ok { seats := (seatUpdateManyHold db.seats data.seatId seat.version).2,
                        reservations := rs', performances := ps' }

/-- The `prisma.$transaction` call of `processNextReservation`:
`infraOk = false` injects a transient infrastructure failure (the
transaction throws before committing, so the database is untouched). -/
def runTransaction (infraOk : Bool) (data : ReservationQueueData) (db : Db) :
    Except SvcError Db :=
  if infraOk then settleTx data db else .error (.DbError transientMsg)

/-- `processNextReservation` (lines 182-251): `lpop` one intent off the
queue (an empty queue returns `false`); run the settlement transaction on
it; any thrown error is caught, logged, and turned into `false`.  Note
that the `lpop` happens before the transaction and is never undone: the
popped intent is gone from the queue whether or not settlement
succeeded. -/
def processNextReservation (infraOk : Bool) (st : ServiceState) :
    ServiceState × Bool :=
  match st.redis.queue with
  | [] => (st, false)
  | data :: rest =>
      let redis' : RedisState := { st.redis with queue := rest }
      match runTransaction infraOk data st.db with
      | .ok db' => ({ redis := redis', db := db' }, true)
      | .error _ => ({ redis := redis', db := st.db }, false)

/-- The `handleReservationQueue` batch loop of the scheduler (up to 50
intents per tick): call `processNextReservation` repeatedly, stopping as
soon as it returns `false`.  The loop cannot tell an empty queue from a
failed intent — both return `false`. -/
def handleReservationQueue (fuel : Nat) (st : ServiceState) : ServiceState :=
  match fuel with
  | 0 => st
  | Nat.succ n =>
      let step := processNextReservation true st
      if step.2 then handleReservationQueue n step.1 else step.1

/-- One scheduler tick of the settlement worker: a batch of at most 50. -/
def reservationTick (st : ServiceState) : ServiceState :=
  handleReservationQueue 50 st

/-! ## Confirm / cancel (`confirmReservation`, `cancelReservation`) -/

/-- `confirmReservation` (lines 253-290): find the reservation; missing
throws NotFound; non-PENDING throws Conflict; else set it CONFIRMED with
`paidAt := now` and flip its seat to OCCUPIED with version + 1, in one
transaction.  The `seat.update` throws when the seat row is missing. -/
def confirmTx (reservationId : String) (now : Nat) (db : Db) :
    Except SvcError Db :=
  match lookupKV db.reservations reservationId with
  | none => .error (.NotFoundException resNotFoundMsg)
  | some r =>
      if r.status ≠ .PENDING then .error (.ConflictException confirmOnlyPendingMsg)
      else
        match lookupKV db.seats r.seatId with
        | none => .error (.DbError seatRowMissingMsg)
        | some _ =>
            .ok { db with
              reservations := updateKV db.reservations reservationId
                (fun r0 => { r0 with status := .CONFIRMED, paidAt := some now }),
              seats := updateKV db.seats r.seatId
                (fun s => { s with status := .OCCUPIED, version := s.version + 1 }) }

/-- `cancelReservation` transaction body (lines 292-333): find the
reservation with its seat; missing throws NotFound; non-PENDING throws
Conflict; else set it CANCELLED, restore its seat to AVAILABLE with
version + 1, and increment the collection available-count, in one
transaction. -/
def cancelTx (reservationId : String) (db : Db) : Except SvcError Db :=
  match lookupKV db.reservations reservationId with
  | none => .error (.NotFoundException resNotFoundMsg)
  | some r =>
      if r.status ≠ .PENDING then .error (.ConflictException cancelOnlyPendingMsg)
      else
        match lookupKV db.seats r.seatId with
        | none => .error (.DbError seatRowMissingMsg)
        | some seat =>
            match performanceUpdateAdd db.performances seat.performanceId 1 with
            | none => .error (.DbError perfRowMissingMsg)
            | some ps' =>
                .ok { seats := updateKV db.seats r.seatId
                        (fun s => { s with status := .AVAILABLE, version := s.version + 1 }),
                      reservations := updateKV db.reservations reservationId
                        (fun r0 => { r0 with status := .CANCELLED }),
                      performances := ps' }

/-- The `cancelReservation` service method over the full service state: it
runs the cancel transaction and touches nothing else — in particular it
performs no write to the Redis seat-status cache. -/
def cancelReservation (reservationId : String) (st : ServiceState) :
    Except SvcError ServiceState :=
  match cancelTx reservationId st.db with
  | .ok db' => .ok { st with db := db' }
  | .error e => .error e

/-! ## Expiry sweeper (`expireOverdueReservations`, lines 335-358) -/

/-- The `findMany` scan: ids of reservations with status PENDING and
`reservedAt` strictly before the threshold. -/
def overdueIds (db : Db) (threshold : Nat) : List String :=
  (db.reservations.filter (fun p =>
    decide (p.2.status = ResStatus.PENDING ∧ p.2.reservedAt < threshold))).map
    Prod.fst

/-- The sweep loop: cancel each scanned reservation in order, counting
successes; a failed cancel is logged and skipped, and the loop
continues. -/
def sweepLoop : List String → Db → Db × Nat
  | [], db => (db, 0)
  | rid :: rest, db =>
      match cancelTx rid db with
      | .ok db' =>
          let r := sweepLoop rest db'
          (r.1, r.2 + 1)
      | .error _ => sweepLoop rest db

/-- `expireOverdueReservations`: scan once, then sweep the scanned list. -/
def expireOverdueReservations (threshold : Nat) (db : Db) : Db × Nat :=
  sweepLoop (overdueIds db threshold) db

/-! ## Association-list lemmas -/

theorem lookupKV_cons {β : Type} (k0 : String) (v0 : β)
    (rest : List (String × β)) (k : String) :
    lookupKV ((k0, v0) :: rest) k =
      if k0 = k then some v0 else lookupKV rest k := rfl

theorem setKV_cons {β : Type} (k0 : String) (v0 : β)
    (rest : List (String × β)) (k : String) (v : β) :
    setKV ((k0, v0) :: rest) k v =
      if k0 = k then (k, v) :: rest else (k0, v0) :: setKV rest k v := rfl

theorem updateKV_cons {β : Type} (k0 : String) (v0 : β)
    (rest : List (String × β)) (k : String) (f : β → β) :
    updateKV ((k0, v0) :: rest) k f =
      (if k0 = k then (k0, f v0) else (k0, v0)) :: updateKV rest k f := by
  simp only [updateKV, List.map_cons]

theorem lookupKV_setKV_self {β : Type} (l : List (String × β)) (k : String)
    (v : β) : lookupKV (setKV l k v) k = some v := by
  induction l with
  | nil => simp [setKV, lookupKV]
  | cons p rest ih =>
      obtain ⟨k', v'⟩ := p
      rw [setKV_cons]
      by_cases h : k' = k
      · rw [if_pos h, lookupKV_cons, if_pos rfl]
      · rw [if_neg h, lookupKV_cons, if_neg h]
        exact ih

theorem lookupKV_setKV_ne {β : Type} (l : List (String × β)) (k k' : String)
    (v : β) (h : k' ≠ k) : lookupKV (setKV l k v) k' = lookupKV l k' := by
  induction l with
  | nil =>
      rw [show setKV ([] : List (String × β)) k v = [(k, v)] from rfl,
        lookupKV_cons, if_neg (Ne.symm h)]
  | cons p rest ih =>
      obtain ⟨k0, v0⟩ := p
      rw [setKV_cons]
      by_cases h0 : k0 = k
      · subst h0
        rw [if_pos rfl, lookupKV_cons, if_neg (Ne.symm h), lookupKV_cons,
          if_neg (Ne.symm h)]
      · rw [if_neg h0, lookupKV_cons, lookupKV_cons]
        by_cases h1 : k0 = k'
        · rw [if_pos h1, if_pos h1]
        · rw [if_neg h1, if_neg h1]
          exact ih

theorem lookupKV_updateKV {β : Type} (l : List (String × β)) (k k' : String)
    (f : β → β) :
    lookupKV (updateKV l k f) k' =
      (lookupKV l k').map (fun v => if k' = k then f v else v) := by
  induction l with
  | nil => simp [updateKV, lookupKV]
  | cons p rest ih =>
      obtain ⟨k0, v0⟩ := p
      rw [updateKV_cons]
      by_cases h0 : k0 = k
      · rw [if_pos h0, lookupKV_cons, lookupKV_cons]
        by_cases h1 : k0 = k'
        · rw [if_pos h1, if_pos h1]
          have hk : k' = k := h1 ▸ h0
          simp [hk]
        · rw [if_neg h1, if_neg h1]
          exact ih
      · rw [if_neg h0, lookupKV_cons, lookupKV_cons]
        by_cases h1 : k0 = k'
        · rw [if_pos h1, if_pos h1]
          have hk : ¬ k' = k := fun hc => h0 (h1.trans hc)
          simp [hk]
        · rw [if_neg h1, if_neg h1]
          exact ih

theorem lookupKV_updateKV_self {β : Type} (l : List (String × β)) (k : String)
    (f : β → β) :
    lookupKV (updateKV l k f) k = (lookupKV l k).map f := by
  simp [lookupKV_updateKV]

theorem lookupKV_updateKV_of_ne {β : Type} (l : List (String × β))
    (k k' : String) (f : β → β) (h : k' ≠ k) :
    lookupKV (updateKV l k f) k' = lookupKV l k' := by
  rw [lookupKV_updateKV]
  cases lookupKV l k' with
  | none => rfl
  | some v => simp [h]

theorem lookupKV_mem {β : Type} {l : List (String × β)} {k : String} {v : β}
    (h : lookupKV l k = some v) : (k, v) ∈ l := by
  induction l with
  | nil => simp [lookupKV] at h
  | cons p rest ih =>
      obtain ⟨k0, v0⟩ := p
      by_cases h0 : k0 = k
      · subst h0
        simp [lookupKV] at h
        subst h
        exact List.mem_cons_self _ _
      · simp [lookupKV, h0] at h
        exact List.mem_cons_of_mem _ (ih h)

theorem mem_lookupKV_of_nodup {β : Type} {l : List (String × β)}
    (hnd : (l.map Prod.fst).Nodup) {k : String} {v : β} (h : (k, v) ∈ l) :
    lookupKV l k = some v := by
  induction l with
  | nil => simp at h
  | cons p rest ih =>
      obtain ⟨k0, v0⟩ := p
      simp only [List.map_cons, List.nodup_cons] at hnd
      rcases List.mem_cons.mp h with h1 | h1
      · rw [Prod.mk.injEq] at h1
        obtain ⟨hk, hv⟩ := h1
        subst hk
        subst hv
        simp [lookupKV]
      · have hk0 : k0 ≠ k := by
          intro hc
          subst hc
          exact hnd.1 (List.mem_map.mpr ⟨(k0, v), h1, rfl⟩)
        simp [lookupKV, hk0]
        exact ih hnd.2 h1

theorem lookupKV_append_of_none {β : Type} {l : List (String × β)}
    {k : String} (h : lookupKV l k = none) (l2 : List (String × β)) :
    lookupKV (l ++ l2) k = lookupKV l2 k := by
  induction l with
  | nil => rfl
  | cons p rest ih =>
      obtain ⟨k0, v0⟩ := p
      rw [lookupKV_cons] at h
      by_cases h0 : k0 = k
      · rw [if_pos h0] at h
        exact absurd h (by simp)
      · rw [if_neg h0] at h
        rw [List.cons_append, lookupKV_cons, if_neg h0]
        exact ih h

theorem lookupKV_append_of_some {β : Type} {l : List (String × β)}
    {k : String} {v : β} (h : lookupKV l k = some v)
    (l2 : List (String × β)) : lookupKV (l ++ l2) k = some v := by
  induction l with
  | nil => simp [lookupKV] at h
  | cons p rest ih =>
      obtain ⟨k0, v0⟩ := p
      by_cases h0 : k0 = k
      · simp_all [lookupKV]
      · simp only [lookupKV, if_neg h0, List.cons_append] at h ⊢
        exact ih h

theorem lookupKV_isSome_updateKV {β : Type} (l : List (String × β))
    (k k' : String) (f : β → β) :
    (lookupKV (updateKV l k f) k').isSome = (lookupKV l k').isSome := by
  rw [lookupKV_updateKV]
  cases lookupKV l k' <;> rfl

/-! ## Conditional-update and settlement lemmas -/

theorem seatUpdateManyHold_snd_cons (k0 : String) (s0 : Seat)
    (rest : List (String × Seat)) (sid : String) (v : Nat) :
    (seatUpdateManyHold ((k0, s0) :: rest) sid v).2 =
      (if seatHoldWhere sid v (k0, s0) then (k0, holdBump s0) else (k0, s0)) ::
        (seatUpdateManyHold rest sid v).2 := by
  simp only [seatUpdateManyHold, List.map_cons]

theorem seatUpdateManyHold_lookup_self (seats : List (String × Seat))
    (sid : String) (v : Nat) :
    lookupKV (seatUpdateManyHold seats sid v).2 sid =
      (lookupKV seats sid).map (fun s =>
        if s.version = v ∧ s.status = SeatStatus.AVAILABLE then holdBump s
        else s) := by
  induction seats with
  | nil => rfl
  | cons p rest ih =>
      obtain ⟨k0, s0⟩ := p
      rw [seatUpdateManyHold_snd_cons]
      by_cases hk : k0 = sid
      · subst hk
        by_cases hc : s0.version = v ∧ s0.status = SeatStatus.AVAILABLE
        · have hw : seatHoldWhere k0 v (k0, s0) = true := by
            simp [seatHoldWhere, hc.1, hc.2]
          rw [if_pos hw, lookupKV_cons, if_pos rfl, lookupKV_cons, if_pos rfl]
          simp [hc]
        · have hw : seatHoldWhere k0 v (k0, s0) = false := by
            simp only [seatHoldWhere, decide_eq_false_iff_not]
            intro hcontra
            exact hc ⟨hcontra.2.1, hcontra.2.2⟩
          rw [if_neg (by simp [hw]), lookupKV_cons, if_pos rfl, lookupKV_cons,
            if_pos rfl]
          simp [hc]
      · have hw : seatHoldWhere sid v (k0, s0) = false := by
          simp [seatHoldWhere, hk]
        rw [if_neg (by simp [hw]), lookupKV_cons, if_neg hk, lookupKV_cons,
          if_neg hk]
        exact ih

theorem seatUpdateManyHold_lookup_ne (seats : List (String × Seat))
    (sid k : String) (v : Nat) (h : k ≠ sid) :
    lookupKV (seatUpdateManyHold seats sid v).2 k = lookupKV seats k := by
  induction seats with
  | nil => rfl
  | cons p rest ih =>
      obtain ⟨k0, s0⟩ := p
      rw [seatUpdateManyHold_snd_cons]
      by_cases hk : k0 = sid
      · subst hk
        by_cases hw : seatHoldWhere k0 v (k0, s0) = true
        · rw [if_pos hw, lookupKV_cons, if_neg (fun hc => h hc.symm), lookupKV_cons,
            if_neg (fun hc => h hc.symm)]
          exact ih
        · rw [if_neg hw, lookupKV_cons, lookupKV_cons]
          by_cases h1 : k0 = k
          · rw [if_pos h1, if_pos h1]
          · rw [if_neg h1, if_neg h1]
            exact ih
      · have hw : seatHoldWhere sid v (k0, s0) = false := by
          simp [seatHoldWhere, hk]
        rw [if_neg (by simp [hw]), lookupKV_cons, lookupKV_cons]
        by_cases h1 : k0 = k
        · rw [if_pos h1, if_pos h1]
        · rw [if_neg h1, if_neg h1]
          exact ih

theorem seatUpdateManyHold_count_ne_zero {seats : List (String × Seat)}
    {sid : String} {s : Seat} (h : lookupKV seats sid = some s) {v : Nat}
    (hv : s.version = v) (hs : s.status = SeatStatus.AVAILABLE) :
    (seatUpdateManyHold seats sid v).1 ≠ 0 := by
  have hm : (sid, s) ∈ seats := lookupKV_mem h
  have hpos : 0 < seats.countP (seatHoldWhere sid v) := by
    rw [List.countP_pos_iff]
    exact ⟨(sid, s), hm, by simp [seatHoldWhere, hv, hs]⟩
  simpa [seatUpdateManyHold] using Nat.pos_iff_ne_zero.mp hpos

theorem seatHoldMap_id_of_all_miss {seats : List (String × Seat)}
    {sid : String} {v : Nat}
    (hall : ∀ p ∈ seats, seatHoldWhere sid v p = false) :
    seats.map (fun p =>
      if seatHoldWhere sid v p then (p.1, holdBump p.2) else p) = seats := by
  induction seats with
  | nil => rfl
  | cons q rest ih =>
      rw [List.map_cons, if_neg (by simp [hall q (List.mem_cons_self q rest)]),
        ih (fun p hp => hall p (List.mem_cons_of_mem q hp))]

theorem seatUpdateManyHold_all_miss {seats : List (String × Seat)}
    {sid : String} {v : Nat}
    (h : ∀ p ∈ seats, p.1 = sid →
      p.2.version ≠ v ∨ p.2.status ≠ SeatStatus.AVAILABLE) :
    seatUpdateManyHold seats sid v = (0, seats) := by
  have hall : ∀ p ∈ seats, seatHoldWhere sid v p = false := by
    intro p hp
    simp only [seatHoldWhere, decide_eq_false_iff_not]
    intro hcontra
    rcases h p hp hcontra.1 with hv | hs
    · exact hv hcontra.2.1
    · exact hs hcontra.2.2
  have hc : seats.countP (seatHoldWhere sid v) = 0 := by
    rw [List.countP_eq_zero]
    intro p hp
    simp [hall p hp]
  simp only [seatUpdateManyHold, hc, seatHoldMap_id_of_all_miss hall]

theorem reservationCreate_ok_spec {rs : List (String × Reservation)}
    {d : ReservationQueueData} {rs' : List (String × Reservation)}
    (h : reservationCreate rs d = .ok rs') :
    lookupKV rs d.id = none ∧
    rs.any (fun p => p.2.seatId = d.seatId) = false ∧
    rs' = rs ++ [(d.id, mkPendingRes d)] := by
  unfold reservationCreate at h
  split at h
  · cases h
  next hid =>
    split at h
    · cases h
    next hsid =>
      cases h
      refine ⟨?_, ?_, rfl⟩
      · cases hl : lookupKV rs d.id with
        | none => rfl
        | some r => rw [hl] at hid; simp at hid
      · simpa using hsid

theorem performanceUpdateAdd_some_spec {ps : List (String × Performance)}
    {pid : String} {delta : Int} {ps' : List (String × Performance)}
    (h : performanceUpdateAdd ps pid delta = some ps') :
    (lookupKV ps pid).isSome ∧
    ps' = updateKV ps pid
      (fun p => { p with availableSeats := p.availableSeats + delta }) := by
  unfold performanceUpdateAdd at h
  split at h
  · cases h
  next p0 hp0 =>
    cases h
    exact ⟨by rw [hp0]; rfl, rfl⟩

theorem settleTx_ok_spec {d : ReservationQueueData} {db db' : Db}
    (h : settleTx d db = .ok db') :
    ∃ seat, lookupKV db.seats d.seatId = some seat ∧
      seat.status = SeatStatus.AVAILABLE ∧
      lookupKV db.reservations d.id = none ∧
      db.reservations.any (fun p => p.2.seatId = d.seatId) = false ∧
      db'.seats = (seatUpdateManyHold db.seats d.seatId seat.version).2 ∧
      db'.reservations = db.reservations ++ [(d.id, mkPendingRes d)] ∧
      (lookupKV db.performances seat.performanceId).isSome ∧
      db'.performances = updateKV db.performances seat.performanceId
        (fun p => { p with availableSeats := p.availableSeats + (-1) }) := by
  unfold settleTx at h
  split at h
  · cases h
  next seat hseat =>
    split at h
    · cases h
    next hst =>
      split at h
      · cases h
      next hcnt =>
        rcases hres : reservationCreate db.reservations d with e | rs'
        · rw [hres] at h
          cases h
        · rw [hres] at h
          rcases hperf : performanceUpdateAdd db.performances
              seat.performanceId (-1) with _ | ps'
          · rw [hperf] at h
            cases h
          · rw [hperf] at h
            cases h
            obtain ⟨hid, hsid, hrs⟩ := reservationCreate_ok_spec hres
            obtain ⟨hp, hps⟩ := performanceUpdateAdd_some_spec hperf
            exact ⟨seat, hseat, Decidable.not_not.mp hst, hid, hsid, rfl,
              by rw [hrs], hp, by rw [hps]⟩

theorem settleTx_ok_seat_held {d : ReservationQueueData} {db db' : Db}
    (h : settleTx d db = .ok db') :
    ∃ seat, lookupKV db.seats d.seatId = some seat ∧
      seat.status = SeatStatus.AVAILABLE ∧
      lookupKV db'.seats d.seatId = some (holdBump seat) := by
  obtain ⟨seat, hseat, hav, _, _, hseats, _⟩ := settleTx_ok_spec h
  refine ⟨seat, hseat, hav, ?_⟩
  rw [hseats, seatUpdateManyHold_lookup_self, hseat]
  simp [hav]

theorem settleTx_not_available {d : ReservationQueueData} {db : Db}
    {seat : Seat} (hseat : lookupKV db.seats d.seatId = some seat)
    (hst : seat.status ≠ SeatStatus.AVAILABLE) :
    settleTx d db = .error (.ConflictException settleConflictMsg) := by
  simp only [settleTx, hseat]
  rw [if_pos hst]

theorem settleTx_succeeds {d : ReservationQueueData} {db : Db} {seat : Seat}
    (hseat : lookupKV db.seats d.seatId = some seat)
    (hav : seat.status = SeatStatus.AVAILABLE)
    (hid : lookupKV db.reservations d.id = none)
    (hsid : db.reservations.any (fun p => p.2.seatId = d.seatId) = false)
    (hperf : (lookupKV db.performances seat.performanceId).isSome) :
    settleTx d db = .ok
      { seats := (seatUpdateManyHold db.seats d.seatId seat.version).2,
        reservations := db.reservations ++ [(d.id, mkPendingRes d)],
        performances := updateKV db.performances seat.performanceId
          (fun p => { p with availableSeats := p.availableSeats + (-1) }) } := by
  simp only [settleTx, hseat]
  rw [if_neg (not_not_intro hav),
    if_neg (seatUpdateManyHold_count_ne_zero hseat rfl hav)]
  simp only [reservationCreate]
  rw [if_neg (by rw [hid]; simp), if_neg (by rw [hsid]; simp)]
  simp only [performanceUpdateAdd]
  obtain ⟨p0, hp0⟩ := Option.isSome_iff_exists.mp hperf
  rw [hp0]

/-! ## Confirm / cancel characterization lemmas -/

theorem confirmTx_ok_spec {rid : String} {now : Nat} {db db' : Db}
    (h : confirmTx rid now db = .ok db') :
    ∃ r, lookupKV db.reservations rid = some r ∧
      r.status = ResStatus.PENDING ∧
      (lookupKV db.seats r.seatId).isSome ∧
      db'.reservations = updateKV db.reservations rid
        (fun r0 => { r0 with status := .CONFIRMED, paidAt := some now }) ∧
      db'.seats = updateKV db.seats r.seatId
        (fun s => { s with status := .OCCUPIED, version := s.version + 1 }) ∧
      db'.performances = db.performances := by
  unfold confirmTx at h
  split at h
  · cases h
  next r hr =>
    split at h
    · cases h
    next hst =>
      split at h
      · cases h
      next s0 hs0 =>
        cases h
        exact ⟨r, hr, Decidable.not_not.mp hst, by rw [hs0]; rfl, rfl, rfl, rfl⟩

theorem cancelTx_ok_spec {rid : String} {db db' : Db}
    (h : cancelTx rid db = .ok db') :
    ∃ r seat, lookupKV db.reservations rid = some r ∧
      r.status = ResStatus.PENDING ∧
      lookupKV db.seats r.seatId = some seat ∧
      (lookupKV db.performances seat.performanceId).isSome ∧
      db'.seats = updateKV db.seats r.seatId
        (fun s => { s with status := .AVAILABLE, version := s.version + 1 }) ∧
      db'.reservations = updateKV db.reservations rid
        (fun r0 => { r0 with status := .CANCELLED }) ∧
      db'.performances = updateKV db.performances seat.performanceId
        (fun p => { p with availableSeats := p.availableSeats + 1 }) := by
  unfold cancelTx at h
  split at h
  · cases h
  next r hr =>
    split at h
    · cases h
    next hst =>
      split at h
      · cases h
      next seat hseat =>
        rcases hperf : performanceUpdateAdd db.performances
            seat.performanceId 1 with _ | ps'
        · rw [hperf] at h
          cases h
        · rw [hperf] at h
          cases h
          obtain ⟨hp, hps⟩ := performanceUpdateAdd_some_spec hperf
          exact ⟨r, seat, hr, Decidable.not_not.mp hst, hseat, hp, rfl, rfl,
            by rw [hps]⟩

theorem cancelTx_succeeds {rid : String} {db : Db} {r : Reservation}
    {seat : Seat} (hr : lookupKV db.reservations rid = some r)
    (hst : r.status = ResStatus.PENDING)
    (hseat : lookupKV db.seats r.seatId = some seat)
    (hperf : (lookupKV db.performances seat.performanceId).isSome) :
    cancelTx rid db = .ok
      { seats := updateKV db.seats r.seatId
          (fun s => { s with status := .AVAILABLE, version := s.version + 1 }),
        reservations := updateKV db.reservations rid
          (fun r0 => { r0 with status := .CANCELLED }),
        performances := updateKV db.performances seat.performanceId
          (fun p => { p with availableSeats := p.availableSeats + 1 }) } := by
  simp only [cancelTx, hr]
  rw [if_neg (not_not_intro hst)]
  simp only [hseat, performanceUpdateAdd]
  obtain ⟨p0, hp0⟩ := Option.isSome_iff_exists.mp hperf
  rw [hp0]

theorem cancelTx_conflict_of_not_pending {rid : String} {db : Db}
    {r : Reservation} (hr : lookupKV db.reservations rid = some r)
    (hst : r.status ≠ ResStatus.PENDING) :
    cancelTx rid db = .error (.ConflictException cancelOnlyPendingMsg) := by
  simp only [cancelTx, hr]
  rw [if_pos hst]

/-! ## Concrete fixtures used by witnesses and counterexamples -/

def perfA : Performance := { availableSeats := 10 }

def seatA : Seat :=
  { performanceId := "p1", seatNumber := "A1", status := .AVAILABLE,
    version := 0 }

def dbA : Db :=
  { seats := [("s1", seatA)], reservations := [],
    performances := [("p1", perfA)] }

def intentA : ReservationQueueData :=
  { id := "i1", userId := "u1", seatId := "s1", reservedAt := 100 }

def intentB : ReservationQueueData :=
  { id := "i2", userId := "u2", seatId := "s1", reservedAt := 101 }

/-- The database after settling `intentA` against `dbA`. -/
def dbA1 : Db := ((settleTx intentA dbA).toOption).getD dbA

def resA : Reservation :=
  { userId := "u1", seatId := "s1", status := .PENDING, reservedAt := 100,
    paidAt := none }

def seatH : Seat :=
  { performanceId := "p1", seatNumber := "A1", status := .HELD, version := 1 }

/-- A database holding a settled PENDING reservation on HELD seat s1. -/
def dbB : Db :=
  { seats := [("s1", seatH)], reservations := [("i1", resA)],
    performances := [("p1", { availableSeats := 9 })] }

def dbBconf : Db := ((confirmTx "i1" 200 dbB).toOption).getD dbB

def dbBcanc : Db := ((cancelTx "i1" dbB).toOption).getD dbB

def scriptStateA : RedisState :=
  { cache := [(statusKey "s1", { value := "AVAILABLE", ttl := 600 })],
    queue := [] }

def scriptRunA : ScriptResult × RedisState :=
  reservationScript scriptStateA (statusKey "s1") intentA 600

/-! ## Claim C10 -/

/-- C10: the fast-path reservation script is all-or-nothing.  When it
returns OK it has both appended the intent to the queue and set the seat
status key to HELD with the given TTL (touching no other key); when it
returns FAIL or MISS it leaves the whole Redis state — queue and status
key — unchanged.  The script executes as a single atomic Redis step in
the model, mirroring the atomicity of Lua EVAL, so no interleaving can
observe the intent enqueued without the seat marked HELD or vice
versa. -/
theorem C10_script_all_or_nothing (r : RedisState) (key : String)
    (d : ReservationQueueData) (ttl : Nat) :
    (∀ r', reservationScript r key d ttl = (.OK, r') →
        r'.queue = r.queue ++ [d] ∧
        lookupKV r'.cache key = some { value := "HELD", ttl := ttl } ∧
        ∀ k, k ≠ key → lookupKV r'.cache k = lookupKV r.cache k)
    ∧ (∀ res r', reservationScript r key d ttl = (res, r') → res ≠ .OK →
        r' = r) := by
  constructor
  · intro r' h
    unfold reservationScript at h
    split at h
    · simp at h
    next entry hentry =>
      split at h
      · simp at h
      · cases h
        refine ⟨rfl, lookupKV_setKV_self _ _ _, ?_⟩
        intro k hk
        exact lookupKV_setKV_ne _ _ _ _ hk
  · intro res r' h hne
    unfold reservationScript at h
    split at h
    · cases h
      rfl
    next entry hentry =>
      split at h
      · cases h
        rfl
      · cases h
        exact absurd rfl hne

/-- Closed witness for C10 on a concrete warm AVAILABLE cache. -/
theorem C10_script_all_or_nothing_witness :
    scriptRunA.2.queue = scriptStateA.queue ++ [intentA] ∧
    lookupKV scriptRunA.2.cache (statusKey "s1") =
      some { value := "HELD", ttl := 600 } ∧
    lookupKV scriptRunA.2.cache "other" = lookupKV scriptStateA.cache "other" := by
  have h := (C10_script_all_or_nothing scriptStateA (statusKey "s1") intentA
    600).1 scriptRunA.2 rfl
  exact ⟨h.1, h.2.1, h.2.2 "other" (by decide)⟩

/-! ## Claim C2 -/

/-- C2: every durable seat mutation performed by the engine — the
settlement HELD-flip, confirm's OCCUPIED-flip and cancel's
AVAILABLE-flip — strictly increments the seat's version (new version =
old version + 1), and the settlement conditional update affects zero
rows (and leaves the table unchanged) whenever every row with the seat's
id has a version different from the value read in step 1 or a status
other than AVAILABLE. -/
theorem C2_version_monotonicity :
    (∀ d db db' seat, settleTx d db = .ok db' →
        lookupKV db.seats d.seatId = some seat →
        ∃ s', lookupKV db'.seats d.seatId = some s' ∧
          s'.version = seat.version + 1)
    ∧ (∀ rid now db db' r seat, confirmTx rid now db = .ok db' →
        lookupKV db.reservations rid = some r →
        lookupKV db.seats r.seatId = some seat →
        ∃ s', lookupKV db'.seats r.seatId = some s' ∧
          s'.version = seat.version + 1)
    ∧ (∀ rid db db' r seat, cancelTx rid db = .ok db' →
        lookupKV db.reservations rid = some r →
        lookupKV db.seats r.seatId = some seat →
        ∃ s', lookupKV db'.seats r.seatId = some s' ∧
          s'.version = seat.version + 1)
    ∧ (∀ seats sid v,
        (∀ p ∈ seats, p.1 = sid →
          p.2.version ≠ v ∨ p.2.status ≠ SeatStatus.AVAILABLE) →
        seatUpdateManyHold seats sid v = (0, seats)) := by
  refine ⟨?_, ?_, ?_, ?_⟩
  · intro d db db' seat h hseat
    obtain ⟨seat0, hseat0, _, hheld⟩ := settleTx_ok_seat_held h
    rw [hseat] at hseat0
    have he : seat0 = seat := by injection hseat0.symm
    subst he
    exact ⟨holdBump seat0, hheld, rfl⟩
  · intro rid now db db' r seat h hr hseat
    obtain ⟨r0, hr0, _, _, _, hseats, _⟩ := confirmTx_ok_spec h
    rw [hr] at hr0
    have he : r0 = r := by injection hr0.symm
    subst he
    refine ⟨{ seat with status := .OCCUPIED, version := seat.version + 1 },
      ?_, rfl⟩
    rw [hseats, lookupKV_updateKV_self, hseat]
    rfl
  · intro rid db db' r seat h hr hseat
    obtain ⟨r0, seat0, hr0, _, _, _, hseats, _⟩ := cancelTx_ok_spec h
    rw [hr] at hr0
    have he : r0 = r := by injection hr0.symm
    subst he
    refine ⟨{ seat with status := .AVAILABLE, version := seat.version + 1 },
      ?_, rfl⟩
    rw [hseats, lookupKV_updateKV_self, hseat]
    rfl
  · intro seats sid v h
    exact seatUpdateManyHold_all_miss h

/-- Closed witness for C2: a concrete settlement flip, confirm flip,
cancel flip, and a stale-version zero-row conditional update. -/
theorem C2_version_monotonicity_witness :
    (∃ s', lookupKV dbA1.seats "s1" = some s' ∧ s'.version = seatA.version + 1)
    ∧ (∃ s', lookupKV dbBconf.seats "s1" = some s' ∧
        s'.version = seatH.version + 1)
    ∧ (∃ s', lookupKV dbBcanc.seats "s1" = some s' ∧
        s'.version = seatH.version + 1)
    ∧ seatUpdateManyHold [("s1", seatH)] "s1" 0 = (0, [("s1", seatH)]) := by
  refine ⟨?_, ?_, ?_, ?_⟩
  · exact C2_version_monotonicity.1 intentA dbA dbA1 seatA rfl rfl
  · exact C2_version_monotonicity.2.1 "i1" 200 dbB dbBconf resA seatH rfl rfl rfl
  · exact C2_version_monotonicity.2.2.1 "i1" dbB dbBcanc resA seatH rfl rfl rfl
  · exact C2_version_monotonicity.2.2.2 [("s1", seatH)] "s1" 0 (by decide)

/-- Evaluation rule for one worker step on an empty queue. -/
theorem processNextReservation_nil (b : Bool) (c : List (String × CacheEntry))
    (db : Db) :
    processNextReservation b { redis := { cache := c, queue := [] }, db := db } =
      ({ redis := { cache := c, queue := [] }, db := db }, false) := rfl

/-- Evaluation rule for one worker step on a nonempty queue. -/
theorem processNextReservation_cons (b : Bool) (c : List (String × CacheEntry))
    (d : ReservationQueueData) (rest : List ReservationQueueData) (db : Db) :
    processNextReservation b
        { redis := { cache := c, queue := d :: rest }, db := db } =
      (match runTransaction b d db with
       | .ok db' => ({ redis := { cache := c, queue := rest }, db := db' }, true)
       | .error _ =>
           ({ redis := { cache := c, queue := rest }, db := db }, false)) := by
  simp only [processNextReservation]

/-! ## Claim C3 -/

/-- C3: whenever the settlement conditional update affects one row (the
transaction reaches its commit), the same transaction creates a durable
Reservation keyed by the intent's identifier whose record carries status
PENDING and the intent's admission timestamp verbatim, and the owning
collection's available-count is decremented by one; and whenever any step
of the settlement fails, `processNextReservation` leaves the database
unchanged (the seat flip does not persist). -/
theorem C3_settlement_transaction_effects :
    (∀ d db db', settleTx d db = .ok db' →
        lookupKV db'.reservations d.id = some (mkPendingRes d) ∧
        (mkPendingRes d).status = ResStatus.PENDING ∧
        (mkPendingRes d).reservedAt = d.reservedAt ∧
        ∀ seat, lookupKV db.seats d.seatId = some seat →
          ∃ p0 p1, lookupKV db.performances seat.performanceId = some p0 ∧
            lookupKV db'.performances seat.performanceId = some p1 ∧
            p1.availableSeats = p0.availableSeats - 1)
    ∧ (∀ b st, (processNextReservation b st).2 = false →
        (processNextReservation b st).1.db = st.db) := by
  constructor
  · intro d db db' h
    obtain ⟨seat, hseat, hav, hid, hsid, hseats, hres, hperf, hperfs⟩ :=
      settleTx_ok_spec h
    refine ⟨?_, rfl, rfl, ?_⟩
    · rw [hres, lookupKV_append_of_none hid, lookupKV_cons, if_pos rfl]
    · intro seat1 hseat1
      rw [hseat] at hseat1
      have he : seat = seat1 := by injection hseat1
      subst he
      obtain ⟨p0, hp0⟩ := Option.isSome_iff_exists.mp hperf
      refine ⟨p0, { p0 with availableSeats := p0.availableSeats + (-1) },
        hp0, ?_, ?_⟩
      · rw [hperfs, lookupKV_updateKV_self, hp0]
        rfl
      · show p0.availableSeats + (-1) = p0.availableSeats - 1
        omega
  · intro b st h
    obtain ⟨⟨c, q⟩, db⟩ := st
    cases q with
    | nil => rfl
    | cons dq rest =>
        rw [processNextReservation_cons] at h ⊢
        cases hr : runTransaction b dq db with
        | ok db' =>
            rw [hr] at h
            simp at h
        | error e => rfl

/-- Closed witness for C3 at the concrete settlement of `intentA`. -/
theorem C3_settlement_transaction_effects_witness :
    lookupKV dbA1.reservations "i1" = some (mkPendingRes intentA) ∧
    (mkPendingRes intentA).reservedAt = 100 ∧
    (∃ p0 p1, lookupKV dbA.performances "p1" = some p0 ∧
      lookupKV dbA1.performances "p1" = some p1 ∧
      p1.availableSeats = p0.availableSeats - 1) ∧
    (processNextReservation false
      { redis := { cache := [], queue := [intentA] }, db := dbA }).1.db = dbA := by
  have h := (C3_settlement_transaction_effects.1 intentA dbA dbA1 rfl)
  refine ⟨h.1, h.2.2.1, ?_, ?_⟩
  · exact h.2.2.2 seatA rfl
  · exact C3_settlement_transaction_effects.2 false
      { redis := { cache := [], queue := [intentA] }, db := dbA } rfl

/-! ## Claim C4 -/

/-- A one-step unfolding of the batch loop. -/
theorem handleReservationQueue_succ (n : Nat) (st : ServiceState) :
    handleReservationQueue (n + 1) st =
      (if (processNextReservation true st).2 then
        handleReservationQueue n (processNextReservation true st).1
      else (processNextReservation true st).1) := rfl

/-- C4 counterexample: with one intent in the queue and a transient
infrastructure failure at the settlement transaction, the worker returns
`false` (error caught) but the queue afterwards is empty — the popped
intent is not restored, so it is not available for redelivery on the next
tick, contradicting the claim. -/
theorem C4_counterexample_intent_lost :
    (processNextReservation false
        { redis := { cache := [], queue := [intentA] }, db := dbA }).2 = false ∧
    (processNextReservation false
        { redis := { cache := [], queue := [intentA] }, db := dbA
        }).1.redis.queue = [] := by
  exact ⟨rfl, rfl⟩

/-- C4 (amended): when the settlement transaction fails transiently, the
error is caught (the worker reports `false` instead of throwing) and the
database is left unchanged, but the intent has already been popped by
`lpop`: the queue afterwards is exactly the tail, so the failed intent is
dropped rather than redelivered. -/
theorem C4_settlement_failure_drops_intent (st : ServiceState)
    (d : ReservationQueueData) (rest : List ReservationQueueData)
    (h : st.redis.queue = d :: rest) :
    (processNextReservation false st).2 = false ∧
    (processNextReservation false st).1.db = st.db ∧
    (processNextReservation false st).1.redis.queue = rest := by
  obtain ⟨⟨c, q⟩, db⟩ := st
  have hq : q = d :: rest := h
  subst hq
  exact ⟨rfl, rfl, rfl⟩

/-- Closed witness for the amended C4. -/
theorem C4_settlement_failure_drops_intent_witness :
    (processNextReservation false
        { redis := { cache := [], queue := [intentB] }, db := dbA }).2 = false ∧
    (processNextReservation false
        { redis := { cache := [], queue := [intentB] }, db := dbA }).1.db = dbA ∧
    (processNextReservation false
        { redis := { cache := [], queue := [intentB] }, db := dbA
        }).1.redis.queue = [] := by
  exact C4_settlement_failure_drops_intent
    { redis := { cache := [], queue := [intentB] }, db := dbA } intentB [] rfl

/-! ## Claim C5 -/

def seatB : Seat :=
  { performanceId := "p1", seatNumber := "B1", status := .AVAILABLE,
    version := 0 }

/-- Database with s1 HELD (its settlement will conflict) and s2
AVAILABLE (its settlement would succeed). -/
def dbC : Db :=
  { seats := [("s1", seatH), ("s2", seatB)], reservations := [],
    performances := [("p1", perfA)] }

def intentBad : ReservationQueueData :=
  { id := "i3", userId := "u3", seatId := "s1", reservedAt := 100 }

def intentGood : ReservationQueueData :=
  { id := "i4", userId := "u4", seatId := "s2", reservedAt := 101 }

def tickStateC : ServiceState :=
  { redis := { cache := [], queue := [intentBad, intentGood] }, db := dbC }

/-- C5 counterexample: with a conflicting intent at the head of the queue
and a processable intent behind it, one whole scheduler tick stops at the
failed intent: the second intent is still queued afterwards and no
reservation was created for it — the worker did not continue with the
next queued intent in the same tick. -/
theorem C5_counterexample_batch_stops :
    (reservationTick tickStateC).redis.queue = [intentGood] ∧
    lookupKV (reservationTick tickStateC).db.reservations "i4" = none := by
  exact ⟨rfl, rfl⟩

/-- C5 (amended): a per-intent settlement failure is caught inside
`processNextReservation` (the tick neither throws nor rolls other work
back, and the database is untouched by the failed intent), but because
failure and queue-exhaustion share the return value `false`, the batch
loop treats the failure as end-of-batch: the tick consumes only the
failing intent and leaves the remaining intents queued for later ticks. -/
theorem C5_failure_ends_tick (st : ServiceState) (d : ReservationQueueData)
    (rest : List ReservationQueueData) (hq : st.redis.queue = d :: rest)
    (e : SvcError) (hfail : settleTx d st.db = .error e) :
    reservationTick st =
      { redis := { st.redis with queue := rest }, db := st.db } := by
  obtain ⟨⟨c, q⟩, db⟩ := st
  have hq' : q = d :: rest := hq
  subst hq'
  have hfail' : runTransaction true d db = .error e := hfail
  show handleReservationQueue (49 + 1) _ = _
  rw [handleReservationQueue_succ, processNextReservation_cons, hfail']
  rfl

/-- Closed witness for the amended C5. -/
theorem C5_failure_ends_tick_witness :
    reservationTick tickStateC =
      { redis := { cache := [], queue := [intentGood] }, db := dbC } := by
  exact C5_failure_ends_tick tickStateC intentBad [intentGood] rfl
    (.ConflictException settleConflictMsg) rfl

/-! ## Claim C6 -/

/-- The admission-time HELD cache entry, with 500 seconds of TTL left. -/
def heldEntry : CacheEntry := { value := "HELD", ttl := 500 }

/-- Service state holding the settled PENDING reservation i1 on seat s1,
with the admission-time HELD cache entry still present. -/
def cancelStateB : ServiceState :=
  { redis := { cache := [(statusKey "s1", heldEntry)], queue := [] },
    db := dbB }

/-- The service state after `cancelReservation "i1"` on `cancelStateB`. -/
def cancelRunB : ServiceState :=
  ((cancelReservation "i1" cancelStateB).toOption).getD cancelStateB

/-- C6, evaluated at the failing input: `cancelReservation` succeeds — the
durable seat returns to AVAILABLE with its version bumped — yet the whole
Redis state is untouched: the oracle entry for the seat still reads HELD,
and a subsequent admission for the seat is rejected with the cached
conflict.  The claimed best-effort reset of the oracle to AVAILABLE does
not exist in this `cancelReservation`. -/
theorem C6_cancel_leaves_cache_stale :
    cancelReservation "i1" cancelStateB = .ok cancelRunB ∧
    cancelRunB.redis = cancelStateB.redis ∧
    lookupKV cancelRunB.redis.cache (statusKey "s1") = some heldEntry ∧
    lookupKV cancelRunB.db.seats "s1" =
      some { seatH with status := .AVAILABLE, version := 2 } ∧
    (reserveSeat true "i9" 300 "u9" "s1" cancelRunB).1 =
      .rejected (.ConflictException cacheConflictMsg) := by
  exact ⟨rfl, rfl, rfl, rfl, rfl⟩

/-! ## Claim C8 -/

def resACancelled : Reservation := { resA with status := .CANCELLED }

def seatAv2 : Seat := { seatA with version := 2 }

/-- Database after a completed cancel cycle: seat s1 is durably AVAILABLE
again, but the CANCELLED reservation row for s1 is still present. -/
def dbD : Db :=
  { seats := [("s1", seatAv2)], reservations := [("i1", resACancelled)],
    performances := [("p1", perfA)] }

def intentFresh : ReservationQueueData :=
  { id := "i5", userId := "u5", seatId := "s1", reservedAt := 400 }

def admitStateD : ServiceState :=
  { redis := { cache := [], queue := [] }, db := dbD }

/-- The admission of the fresh intent i5 for the re-opened seat s1. -/
def admitRunD : ReserveOutcome × ServiceState :=
  reserveSeat true "i5" 400 "u5" "s1" admitStateD

/-- C8, evaluated at the failing input: after the cancel cycle the fresh
admission for s1 is accepted (PENDING, intent enqueued), but settlement
hits the unique index `Reservation_seatId_key` — the CANCELLED row still
references s1 — so `reservation.create` throws, the transaction rolls
back, the seat never transitions to HELD and no PENDING reservation is
created; the intent is consumed with a failure.  Re-reservation after
cancel cannot succeed, contradicting the claim. -/
theorem C8_rereservation_blocked_by_unique_index :
    admitRunD.1 = .pending intentFresh ∧
    admitRunD.2.redis.queue = [intentFresh] ∧
    settleTx intentFresh dbD = .error (.DbError uniqueSeatMsg) ∧
    processNextReservation true admitRunD.2 =
      ({ redis := { admitRunD.2.redis with queue := [] }, db := dbD }, false) ∧
    lookupKV ((processNextReservation true admitRunD.2).1.db).seats "s1" =
      some seatAv2 ∧
    lookupKV
      ((processNextReservation true admitRunD.2).1.db).reservations "i5" =
      none := by
  exact ⟨rfl, rfl, rfl, rfl, rfl, rfl⟩

/-! ## Claim C9 -/

def intentC9 : ReservationQueueData :=
  { id := "i6", userId := "u6", seatId := "s1", reservedAt := 500 }

/-- A state whose cache entry for s1 (HELD) is stale: the durable seat is
AVAILABLE. -/
def staleState : ServiceState :=
  { redis := { cache := [(statusKey "s1", heldEntry)], queue := [] },
    db := dbA }

/-- C9 counterexample: on a state where the oracle entry is stale (cache
HELD, durable AVAILABLE) the two admission paths produce opposite
outcomes — the fast path rejects with the cached conflict while the
locked slow path enqueues the intent and returns PENDING — so the paths
are not behaviorally identical for every cache/durable state. -/
theorem C9_counterexample_paths_diverge :
    fastPathOutcome intentC9 staleState =
      some (.rejected (.ConflictException cacheConflictMsg), staleState) ∧
    (slowPath true intentC9 staleState).1 = .pending intentC9 := by
  exact ⟨rfl, rfl⟩

/-- Evaluation: fast path on a warm AVAILABLE cache entry. -/
theorem fastPathOutcome_hit_available {d : ReservationQueueData}
    {st : ServiceState} {e : CacheEntry}
    (hc : lookupKV st.redis.cache (statusKey d.seatId) = some e)
    (hv : e.value = "AVAILABLE") :
    fastPathOutcome d st =
      some (.pending d,
        { st with redis :=
          { cache := setKV st.redis.cache (statusKey d.seatId)
              { value := "HELD", ttl := 600 },
            queue := st.redis.queue ++ [d] } }) := by
  simp only [fastPathOutcome, reservationScript, hc]
  rw [if_neg (by simp [hv])]

/-- Evaluation: fast path on a warm non-AVAILABLE cache entry. -/
theorem fastPathOutcome_hit_conflict {d : ReservationQueueData}
    {st : ServiceState} {e : CacheEntry}
    (hc : lookupKV st.redis.cache (statusKey d.seatId) = some e)
    (hv : e.value ≠ "AVAILABLE") :
    fastPathOutcome d st =
      some (.rejected (.ConflictException cacheConflictMsg), st) := by
  simp only [fastPathOutcome, reservationScript, hc]
  rw [if_pos hv]

/-- Evaluation: fast path on a cold cache defers. -/
theorem fastPathOutcome_miss {d : ReservationQueueData} {st : ServiceState}
    (hc : lookupKV st.redis.cache (statusKey d.seatId) = none) :
    fastPathOutcome d st = none := by
  simp only [fastPathOutcome, reservationScript, hc]

/-- The cache entry written when a seat is marked HELD at admission. -/
def heldEntry600 : CacheEntry := { value := "HELD", ttl := 600 }

/-- The cache entry written when the oracle is warmed with a durable
status. -/
def warmEntry (s : SeatStatus) : CacheEntry :=
  { value := statusString s, ttl := 600 }

/-- Evaluation: locked slow path on a durable AVAILABLE seat. -/
theorem slowPath_available {d : ReservationQueueData} {st : ServiceState}
    {seat : Seat} (hseat : lookupKV st.db.seats d.seatId = some seat)
    (hav : seat.status = SeatStatus.AVAILABLE) :
    slowPath true d st =
      (.pending d,
        { st with redis :=
          { cache := setKV st.redis.cache (statusKey d.seatId) heldEntry600,
            queue := st.redis.queue ++ [d] } }) := by
  simp only [slowPath, hseat]
  rw [if_neg (not_not_intro hav), if_pos trivial]
  rfl

/-- Evaluation: locked slow path on a durable non-AVAILABLE seat. -/
theorem slowPath_not_available {d : ReservationQueueData} {st : ServiceState}
    {seat : Seat} (hseat : lookupKV st.db.seats d.seatId = some seat)
    (hav : seat.status ≠ SeatStatus.AVAILABLE) :
    slowPath true d st =
      (.rejected (.ConflictException dbConflictMsg),
        { st with redis :=
          { st.redis with cache := (setKV st.redis.cache (statusKey d.seatId)
              (warmEntry seat.status)) } }) := by
  simp only [slowPath, hseat]
  rw [if_pos hav, if_pos trivial]
  rfl

/-- C9 (amended): the fast path defers to the slow path exactly when the
oracle has no entry; and whenever the oracle entry for the seat agrees
with the durable status (coherent cache), the seat row exists, and the
lock is acquirable, the two paths agree behaviorally: on an AVAILABLE
entry both enqueue the same intent and produce the identical resulting
service state, and on a non-AVAILABLE entry both reject with a
`ConflictException` (the reject tags differ: cached conflict on the fast
path, durable conflict on the slow path) while leaving the queue
untouched. -/
theorem C9_paths_agree_on_coherent_cache (d : ReservationQueueData)
    (st : ServiceState) (seat : Seat)
    (hseat : lookupKV st.db.seats d.seatId = some seat)
    (hcoh : ∀ e, lookupKV st.redis.cache (statusKey d.seatId) = some e →
        e.value = statusString seat.status) :
    (fastPathOutcome d st = none ↔
      lookupKV st.redis.cache (statusKey d.seatId) = none)
    ∧ (∀ out st1, fastPathOutcome d st = some (out, st1) →
        (out = .pending d → slowPath true d st = (.pending d, st1)) ∧
        (∀ e0, out = .rejected e0 →
          e0 = .ConflictException cacheConflictMsg ∧
          (slowPath true d st).1 = .rejected (.ConflictException dbConflictMsg) ∧
          (slowPath true d st).2.redis.queue = st.redis.queue)) := by
  cases hc : lookupKV st.redis.cache (statusKey d.seatId) with
  | none =>
      refine ⟨by simp [fastPathOutcome_miss hc], ?_⟩
      intro out st1 hout
      rw [fastPathOutcome_miss hc] at hout
      cases hout
  | some e =>
      have hval : e.value = statusString seat.status := hcoh e hc
      by_cases hav : seat.status = SeatStatus.AVAILABLE
      · have hv : e.value = "AVAILABLE" := by rw [hval, hav]; rfl
        refine ⟨by simp [fastPathOutcome_hit_available hc hv, hc], ?_⟩
        intro out st1 hout
        rw [fastPathOutcome_hit_available hc hv] at hout
        cases hout
        constructor
        · intro _
          exact slowPath_available hseat hav
        · intro e0 hrej
          cases hrej
      · have hv : e.value ≠ "AVAILABLE" := by
          rw [hval]
          cases hs : seat.status with
          | AVAILABLE => exact absurd hs hav
          | HELD => simp [statusString]
          | OCCUPIED => simp [statusString]
        refine ⟨by simp [fastPathOutcome_hit_conflict hc hv, hc], ?_⟩
        intro out st1 hout
        rw [fastPathOutcome_hit_conflict hc hv] at hout
        cases hout
        constructor
        · intro hpend
          cases hpend
        · intro e0 hrej
          have he0 : SvcError.ConflictException cacheConflictMsg = e0 := by
            injection hrej
          refine ⟨he0.symm, ?_, ?_⟩
          · rw [slowPath_not_available hseat hav]
          · rw [slowPath_not_available hseat hav]

/-- A coherent warm cache entry: AVAILABLE in cache and in the database. -/
def availEntry : CacheEntry := { value := "AVAILABLE", ttl := 600 }

def cohState : ServiceState :=
  { redis := { cache := [(statusKey "s1", availEntry)], queue := [] },
    db := dbA }

/-- The fast-path run on the coherent state. -/
def fastRunCoh : ReserveOutcome × ServiceState :=
  (fastPathOutcome intentC9 cohState).getD
    (.rejected (.DbError transientMsg), cohState)

/-- Closed witness for the amended C9: on a coherent AVAILABLE cache the
slow path reproduces exactly the fast path's PENDING outcome and state. -/
theorem C9_paths_agree_on_coherent_cache_witness :
    slowPath true intentC9 cohState = (.pending intentC9, fastRunCoh.2) := by
  have hcoh : ∀ e, lookupKV cohState.redis.cache (statusKey intentC9.seatId) =
      some e → e.value = statusString seatA.status := by
    intro e he
    have he' : some availEntry = some e := he
    cases he'
    rfl
  have h := (C9_paths_agree_on_coherent_cache intentC9 cohState seatA rfl
    hcoh).2 fastRunCoh.1 fastRunCoh.2 rfl
  exact h.1 rfl

/-! ## Claim C1 -/

/-- Whether a settlement transaction outcome is a success. -/
def isOkB {ε α : Type} : Except ε α → Bool
  | .ok _ => true
  | .error _ => false

/-- Sequential settlement of a list of queued intents: each intent is
popped and its transaction run against the current database, a failure
being caught (leaving the database unchanged) so that the next intent is
still attempted — the composition computed by repeated
`processNextReservation` calls with healthy infrastructure (see
`drainWorker_settles`).  Returns the final database and the per-intent
transaction outcomes in order. -/
def settleOutcomes : List ReservationQueueData → Db →
    Db × List (Except SvcError Unit)
  | [], db => (db, [])
  | d :: rest, db =>
      match settleTx d db with
      | .ok db' =>
          ((settleOutcomes rest db').1, .ok () :: (settleOutcomes rest db').2)
      | .error e =>
          ((settleOutcomes rest db).1, .error e :: (settleOutcomes rest db).2)

theorem settleOutcomes_cons_ok {d : ReservationQueueData} {db db' : Db}
    (h : settleTx d db = .ok db') (rest : List ReservationQueueData) :
    settleOutcomes (d :: rest) db =
      ((settleOutcomes rest db').1, .ok () :: (settleOutcomes rest db').2) := by
  simp only [settleOutcomes, h]

theorem settleOutcomes_cons_error {d : ReservationQueueData} {db : Db}
    {e : SvcError} (h : settleTx d db = .error e)
    (rest : List ReservationQueueData) :
    settleOutcomes (d :: rest) db =
      ((settleOutcomes rest db).1, .error e :: (settleOutcomes rest db).2) := by
  simp only [settleOutcomes, h]

/-- Iterating the settlement worker step until the queue drains. -/
def drainWorker : Nat → ServiceState → ServiceState
  | 0, st => st
  | Nat.succ n, st =>
      match st.redis.queue with
      | [] => st
      | _ :: _ => drainWorker n (processNextReservation true st).1

/-- Grounding: iterating `processNextReservation` over the whole queue
computes exactly the database of `settleOutcomes`. -/
theorem drainWorker_settles (q : List ReservationQueueData)
    (c : List (String × CacheEntry)) (db : Db) :
    drainWorker q.length { redis := { cache := c, queue := q }, db := db } =
      { redis := { cache := c, queue := [] },
        db := (settleOutcomes q db).1 } := by
  induction q generalizing db with
  | nil => rfl
  | cons d rest ih =>
      show drainWorker (rest.length + 1) _ = _
      have hstep : drainWorker (rest.length + 1)
          { redis := { cache := c, queue := d :: rest }, db := db } =
          drainWorker rest.length
            (processNextReservation true
              { redis := { cache := c, queue := d :: rest }, db := db }).1 := rfl
      rw [hstep, processNextReservation_cons]
      cases hr : settleTx d db with
      | ok db' =>
          have hr' : runTransaction true d db = .ok db' := hr
          rw [hr']
          rw [settleOutcomes_cons_ok hr]
          exact ih db'
      | error e =>
          have hr' : runTransaction true d db = .error e := hr
          rw [hr']
          rw [settleOutcomes_cons_error hr]
          exact ih db

/-- Once the seat is durably non-AVAILABLE, every queued intent for it is
dropped with the settlement conflict and the database does not change. -/
theorem settleOutcomes_blocked (intents : List ReservationQueueData)
    (db : Db) (s : String) (seat : Seat)
    (hall : ∀ d ∈ intents, d.seatId = s)
    (hseat : lookupKV db.seats s = some seat)
    (hblk : seat.status ≠ SeatStatus.AVAILABLE) :
    settleOutcomes intents db =
      (db, intents.map
        (fun _ => .error (.ConflictException settleConflictMsg))) := by
  induction intents with
  | nil => rfl
  | cons d rest ih =>
      have hd : d.seatId = s := hall d (List.mem_cons_self d rest)
      have hseat' : lookupKV db.seats d.seatId = some seat := by
        rw [hd]
        exact hseat
      have herr := settleTx_not_available hseat' hblk
      rw [settleOutcomes_cons_error herr,
        ih (fun d' hd' => hall d' (List.mem_cons_of_mem d hd'))]
      rfl

theorem countP_isOkB_const_error (e : SvcError)
    (l : List ReservationQueueData) :
    ((l.map (fun _ => (.error e : Except SvcError Unit))).countP isOkB) = 0 := by
  rw [List.countP_eq_zero]
  intro o ho
  obtain ⟨d0, _, he⟩ := List.mem_map.mp ho
  rw [← he]
  simp [isOkB]

/-- The intent record `reserveSeat` builds from its inputs. -/
def mkIntent (rid uid sid : String) (now : Nat) : ReservationQueueData :=
  { id := rid, userId := uid, seatId := sid, reservedAt := now }

/-- Unfolding rule for `reserveSeat`. -/
theorem reserveSeat_eq (lock : Bool) (rid : String) (now : Nat)
    (uid sid : String) (st : ServiceState) :
    reserveSeat lock rid now uid sid st =
      (match fastPathOutcome (mkIntent rid uid sid now) st with
       | some res => res
       | none => slowPath lock (mkIntent rid uid sid now) st) :=
  rfl

/-- Evaluation: the slow path when the lock is not acquired. -/
theorem slowPath_lock_failed (d : ReservationQueueData) (st : ServiceState) :
    slowPath false d st =
      (.rejected (.ConflictException lockConflictMsg), st) := rfl

/-- Evaluation: the slow path when the seat row is missing. -/
theorem slowPath_not_found {d : ReservationQueueData} {st : ServiceState}
    (h : lookupKV st.db.seats d.seatId = none) :
    slowPath true d st =
      (.rejected (.NotFoundException seatNotFoundMsg), st) := by
  simp [slowPath, h]

/-- C1: at most one of a set of admissions targeting the same resource
reaches durable HELD via settlement, and each of the other contenders is
met with a Contention rejection somewhere in the pipeline.  Settlement
level: processing any queue of intents for seat `s` (fresh intent ids,
no prior reservation row for `s`, seat and collection rows present)
settles at most one of them; every unsuccessful intent ends in the
settlement `ConflictException`; and when a winner exists the seat's
final durable status is HELD.  Admission level: an admission whose call
returns PENDING leaves the seat's oracle entry HELD, and any admission
that reads a non-AVAILABLE oracle entry is rejected with the cached
`ConflictException` without touching the state, so concurrent admissions
serialized through the atomic script observe Contention once one of
them has won. -/
theorem C1_at_most_one_winner (intents : List ReservationQueueData) (db : Db)
    (s : String) (seat : Seat)
    (hall : ∀ d ∈ intents, d.seatId = s)
    (hseat : lookupKV db.seats s = some seat)
    (hperf : (lookupKV db.performances seat.performanceId).isSome)
    (hids : ∀ d ∈ intents, lookupKV db.reservations d.id = none)
    (hsid : db.reservations.any (fun p => p.2.seatId = s) = false) :
    ((settleOutcomes intents db).2.countP isOkB ≤ 1)
    ∧ (∀ o ∈ (settleOutcomes intents db).2, isOkB o = false →
        o = .error (.ConflictException settleConflictMsg))
    ∧ ((settleOutcomes intents db).2.countP isOkB = 1 →
        ∃ s', lookupKV (settleOutcomes intents db).1.seats s = some s' ∧
          s'.status = SeatStatus.HELD)
    ∧ (∀ lock rid now uid st out st',
        reserveSeat lock rid now uid s st = (out, st') →
        out = .pending (mkIntent rid uid s now) →
        lookupKV st'.redis.cache (statusKey s) = some heldEntry600)
    ∧ (∀ lock rid now uid st e,
        lookupKV st.redis.cache (statusKey s) = some e →
        e.value ≠ "AVAILABLE" →
        reserveSeat lock rid now uid s st =
          (.rejected (.ConflictException cacheConflictMsg), st)) := by
  have hmain : ((settleOutcomes intents db).2.countP isOkB ≤ 1)
      ∧ (∀ o ∈ (settleOutcomes intents db).2, isOkB o = false →
          o = .error (.ConflictException settleConflictMsg))
      ∧ ((settleOutcomes intents db).2.countP isOkB = 1 →
          ∃ s', lookupKV (settleOutcomes intents db).1.seats s = some s' ∧
            s'.status = SeatStatus.HELD) := by
    cases intents with
    | nil =>
        refine ⟨by simp [settleOutcomes], by simp [settleOutcomes], ?_⟩
        intro h1
        simp [settleOutcomes] at h1
    | cons d rest =>
        by_cases hav : seat.status = SeatStatus.AVAILABLE
        · have hd : d.seatId = s := hall d (List.mem_cons_self d rest)
          have hseat' : lookupKV db.seats d.seatId = some seat := by
            rw [hd]
            exact hseat
          have hid' : lookupKV db.reservations d.id = none :=
            hids d (List.mem_cons_self d rest)
          have hsid' : db.reservations.any
              (fun p => p.2.seatId = d.seatId) = false := by
            rw [hd]
            exact hsid
          obtain ⟨db1, hsucc⟩ : ∃ db1, settleTx d db = .ok db1 :=
            ⟨_, settleTx_succeeds hseat' hav hid' hsid' hperf⟩
          obtain ⟨seat0, hseat0, hav0, hheld0⟩ := settleTx_ok_seat_held hsucc
          rw [hseat'] at hseat0
          have he : seat0 = seat := by injection hseat0.symm
          subst he
          have hheld : lookupKV db1.seats s = some (holdBump seat0) := by
            rw [← hd]
            exact hheld0
          have hblk := settleOutcomes_blocked rest db1 s (holdBump seat0)
            (fun d' hd' => hall d' (List.mem_cons_of_mem d hd'))
            hheld (by simp [holdBump])
          rw [settleOutcomes_cons_ok hsucc, hblk]
          have h0 := countP_isOkB_const_error
            (.ConflictException settleConflictMsg) rest
          refine ⟨?_, ?_, ?_⟩
          · rw [List.countP_cons, h0]
            simp [isOkB]
          · intro o ho hfalse
            rcases List.mem_cons.mp ho with h1 | h1
            · rw [h1] at hfalse
              simp [isOkB] at hfalse
            · obtain ⟨d0, _, he2⟩ := List.mem_map.mp h1
              rw [← he2]
          · intro _
            exact ⟨holdBump seat0, hheld, rfl⟩
        · have hblk := settleOutcomes_blocked (d :: rest) db s seat hall
            hseat hav
          rw [hblk]
          refine ⟨?_, ?_, ?_⟩
          · rw [countP_isOkB_const_error]
            exact Nat.zero_le 1
          · intro o ho hfalse
            obtain ⟨d0, _, he2⟩ := List.mem_map.mp ho
            rw [← he2]
          · intro h1
            rw [countP_isOkB_const_error] at h1
            exact absurd h1 (by decide)
  refine ⟨hmain.1, hmain.2.1, hmain.2.2, ?_, ?_⟩
  · intro lock rid now uid st out st' hcall hpend
    subst hpend
    rw [reserveSeat_eq] at hcall
    cases hf : fastPathOutcome (mkIntent rid uid s now) st with
    | some res =>
        rw [hf] at hcall
        cases hc : lookupKV st.redis.cache (statusKey s) with
        | none =>
            rw [fastPathOutcome_miss hc] at hf
            cases hf
        | some e =>
            by_cases hv : e.value = "AVAILABLE"
            · rw [fastPathOutcome_hit_available hc hv] at hf
              have hres := Option.some.inj hf
              rw [← hres] at hcall
              have hst' := congrArg Prod.snd hcall
              simp only at hst'
              rw [← hst']
              exact lookupKV_setKV_self _ _ _
            · rw [fastPathOutcome_hit_conflict hc hv] at hf
              have hres := Option.some.inj hf
              rw [← hres] at hcall
              have hout := congrArg Prod.fst hcall
              simp only at hout
              cases hout
    | none =>
        rw [hf] at hcall
        cases lock with
        | false =>
            rw [slowPath_lock_failed] at hcall
            have hout := congrArg Prod.fst hcall
            simp only at hout
            cases hout
        | true =>
            cases hs : lookupKV st.db.seats s with
            | none =>
                rw [slowPath_not_found hs] at hcall
                have hout := congrArg Prod.fst hcall
                simp only at hout
                cases hout
            | some seat1 =>
                by_cases hav1 : seat1.status = SeatStatus.AVAILABLE
                · rw [slowPath_available hs hav1] at hcall
                  have hst' := congrArg Prod.snd hcall
                  simp only at hst'
                  rw [← hst']
                  exact lookupKV_setKV_self _ _ _
                · rw [slowPath_not_available hs hav1] at hcall
                  have hout := congrArg Prod.fst hcall
                  simp only at hout
                  cases hout
  · intro lock rid now uid st e hc hv
    rw [reserveSeat_eq, fastPathOutcome_hit_conflict hc hv]

/-- Closed witness for C1: two racing intents for seat s1 on `dbA` — one
settlement success, final durable status HELD, and an admission against a
HELD oracle entry is rejected with the cached conflict. -/
theorem C1_at_most_one_winner_witness :
    ((settleOutcomes [intentA, intentB] dbA).2.countP isOkB ≤ 1) ∧
    (∃ s', lookupKV (settleOutcomes [intentA, intentB] dbA).1.seats "s1" =
        some s' ∧ s'.status = SeatStatus.HELD) ∧
    reserveSeat true "i9" 900 "u9" "s1" staleState =
      (.rejected (.ConflictException cacheConflictMsg), staleState) := by
  have hall : ∀ d ∈ [intentA, intentB], d.seatId = "s1" := by
    intro d hd
    rcases List.mem_cons.mp hd with h1 | h1
    · rw [h1]
      rfl
    · rcases List.mem_cons.mp h1 with h2 | h2
      · rw [h2]
        rfl
      · cases h2
  have h := C1_at_most_one_winner [intentA, intentB] dbA "s1" seatA
    hall rfl rfl (fun d _ => rfl) rfl
  exact ⟨h.1, h.2.2.1 rfl, h.2.2.2.2 true "i9" 900 "u9" staleState heldEntry
    rfl (by decide)⟩

/-! ## Claim C7 -/

/-- Preconditions under which `cancelTx rid` succeeds: the reservation
exists and is PENDING, its seat row exists, and the seat's collection
row exists. -/
def ReadyToCancel (db : Db) (rid : String) : Prop :=
  ∃ r seat, lookupKV db.reservations rid = some r ∧
    r.status = ResStatus.PENDING ∧
    lookupKV db.seats r.seatId = some seat ∧
    (lookupKV db.performances seat.performanceId).isSome

/-- Whether reservation `rid` sits on a seat of collection `pid`. -/
def resOnPerf (db : Db) (pid : String) (rid : String) : Bool :=
  match lookupKV db.reservations rid with
  | none => false
  | some r =>
      match lookupKV db.seats r.seatId with
      | none => false
      | some seat => decide (seat.performanceId = pid)

theorem sweepLoop_cons_ok_fst {rid : String} {db db2 : Db}
    (h : cancelTx rid db = .ok db2) (rest : List String) :
    (sweepLoop (rid :: rest) db).1 = (sweepLoop rest db2).1 := by
  simp only [sweepLoop, h]

theorem sweepLoop_cons_ok_snd {rid : String} {db db2 : Db}
    (h : cancelTx rid db = .ok db2) (rest : List String) :
    (sweepLoop (rid :: rest) db).2 = (sweepLoop rest db2).2 + 1 := by
  simp only [sweepLoop, h]

theorem sweepLoop_cons_error {rid : String} {db : Db} {e : SvcError}
    (h : cancelTx rid db = .error e) (rest : List String) :
    sweepLoop (rid :: rest) db = sweepLoop rest db := by
  simp only [sweepLoop, h]

/-- The seat row after the cancel AVAILABLE-flip. -/
def cancelBumpSeat (s : Seat) : Seat :=
  { s with status := .AVAILABLE, version := s.version + 1 }

theorem countP_ext {α : Type} {p q : α → Bool} {l : List α}
    (h : ∀ a ∈ l, p a = q a) : l.countP p = l.countP q := by
  induction l with
  | nil => rfl
  | cons a rest ih =>
      rw [List.countP_cons, List.countP_cons, h a (List.mem_cons_self a rest),
        ih (fun b hb => h b (List.mem_cons_of_mem a hb))]

/-- Full effect of the sweep loop on a database in which every scanned
reservation is ready to cancel: every scanned reservation ends
CANCELLED with its seat AVAILABLE, reservations outside the scan are
untouched, seats only ever move to AVAILABLE, and each collection's
available-count grows by exactly the number of scanned reservations
sitting on it; the returned count is the full scan length. -/
theorem sweepLoop_spec (ids : List String) (db1 : Db)
    (hnd : ids.Nodup)
    (hready : ∀ rid ∈ ids, ReadyToCancel db1 rid) :
    ((sweepLoop ids db1).2 = ids.length)
    ∧ (∀ rid ∈ ids, ∀ r, lookupKV db1.reservations rid = some r →
        lookupKV (sweepLoop ids db1).1.reservations rid =
          some { r with status := ResStatus.CANCELLED } ∧
        ∃ sf, lookupKV (sweepLoop ids db1).1.seats r.seatId = some sf ∧
          sf.status = SeatStatus.AVAILABLE)
    ∧ (∀ rid, rid ∉ ids →
        lookupKV (sweepLoop ids db1).1.reservations rid =
          lookupKV db1.reservations rid)
    ∧ (∀ sid s0, lookupKV db1.seats sid = some s0 →
        ∃ sf, lookupKV (sweepLoop ids db1).1.seats sid = some sf ∧
          (sf = s0 ∨ sf.status = SeatStatus.AVAILABLE) ∧
          sf.performanceId = s0.performanceId)
    ∧ (∀ pid p0, lookupKV db1.performances pid = some p0 →
        lookupKV (sweepLoop ids db1).1.performances pid =
          some { p0 with availableSeats :=
            p0.availableSeats + (ids.countP (resOnPerf db1 pid) : Int) }) := by
  induction ids generalizing db1 with
  | nil =>
      refine ⟨rfl, ?_, ?_, ?_, ?_⟩
      · intro rid hrid
        cases hrid
      · intro rid _
        rfl
      · intro sid s0 h0
        exact ⟨s0, h0, Or.inl rfl, rfl⟩
      · intro pid p0 h0
        rw [show (sweepLoop [] db1).1 = db1 from rfl, h0]
        simp
  | cons rid rest ih =>
      obtain ⟨r, seat, hr, hp, hs, hpf⟩ :=
        hready rid (List.mem_cons_self rid rest)
      obtain ⟨db2, hsucc, hres2, hseats2, hperf2⟩ :
          ∃ db2, cancelTx rid db1 = .ok db2 ∧
            db2.reservations = updateKV db1.reservations rid
              (fun r0 => { r0 with status := .CANCELLED }) ∧
            db2.seats = updateKV db1.seats r.seatId cancelBumpSeat ∧
            db2.performances = updateKV db1.performances seat.performanceId
              (fun p => { p with availableSeats := p.availableSeats + 1 }) :=
        ⟨_, cancelTx_succeeds hr hp hs hpf, rfl, rfl, rfl⟩
      have hndr := (List.nodup_cons.mp hnd).2
      have hnotin : rid ∉ rest := (List.nodup_cons.mp hnd).1
      have hres2l : ∀ rid', rid' ≠ rid →
          lookupKV db2.reservations rid' = lookupKV db1.reservations rid' := by
        intro rid' hne
        rw [hres2]
        exact lookupKV_updateKV_of_ne _ _ _ _ hne
      have hresSelf : lookupKV db2.reservations rid =
          some { r with status := ResStatus.CANCELLED } := by
        rw [hres2, lookupKV_updateKV_self, hr]
        rfl
      have hseats2l : ∀ sid, lookupKV db2.seats sid =
          (lookupKV db1.seats sid).map (fun v =>
            if sid = r.seatId then cancelBumpSeat v else v) := by
        intro sid
        rw [hseats2, lookupKV_updateKV]
      have hperf2l : ∀ pid, lookupKV db2.performances pid =
          (lookupKV db1.performances pid).map (fun v =>
            if pid = seat.performanceId then
              { v with availableSeats := v.availableSeats + 1 }
            else v) := by
        intro pid
        rw [hperf2, lookupKV_updateKV]
      have hready2 : ∀ rid' ∈ rest, ReadyToCancel db2 rid' := by
        intro rid' hm
        obtain ⟨r', seat', hr', hp', hs', hpf'⟩ :=
          hready rid' (List.mem_cons_of_mem rid hm)
        have hne : rid' ≠ rid := fun hcc => hnotin (hcc ▸ hm)
        refine ⟨r',
          (if r'.seatId = r.seatId then cancelBumpSeat seat' else seat'),
          ?_, hp', ?_, ?_⟩
        · rw [hres2l rid' hne]
          exact hr'
        · rw [hseats2l, hs']
          rfl
        · have hpid : (if r'.seatId = r.seatId then cancelBumpSeat seat'
              else seat').performanceId = seat'.performanceId := by
            by_cases hss : r'.seatId = r.seatId <;> simp [hss, cancelBumpSeat]
          rw [hpid, hperf2l]
          cases hl : lookupKV db1.performances seat'.performanceId with
          | none =>
              rw [hl] at hpf'
              cases hpf'
          | some q => rfl
      obtain ⟨ih1, ih2, ih3, ih4, ih5⟩ := ih db2 hndr hready2
      refine ⟨?_, ?_, ?_, ?_, ?_⟩
      · rw [sweepLoop_cons_ok_snd hsucc, ih1, List.length_cons]
      · intro rid0 hm r0 hr0
        rcases List.mem_cons.mp hm with h1 | h1
        · subst h1
          rw [hr] at hr0
          have he : r = r0 := by injection hr0
          subst he
          constructor
          · rw [sweepLoop_cons_ok_fst hsucc, ih3 rid0 hnotin, hresSelf]
          · have hbump : lookupKV db2.seats r.seatId =
                some (cancelBumpSeat seat) := by
              rw [hseats2l, hs]
              simp
            obtain ⟨sf, hsf1, hsf2, hsf3⟩ := ih4 r.seatId _ hbump
            refine ⟨sf, ?_, ?_⟩
            · rw [sweepLoop_cons_ok_fst hsucc]
              exact hsf1
            · rcases hsf2 with h3 | h3
              · rw [h3]
                rfl
              · exact h3
        · have hne : rid0 ≠ rid := fun hcc => hnotin (hcc ▸ h1)
          have hr0' : lookupKV db2.reservations rid0 = some r0 := by
            rw [hres2l rid0 hne]
            exact hr0
          obtain ⟨ha, hb⟩ := ih2 rid0 h1 r0 hr0'
          refine ⟨?_, ?_⟩
          · rw [sweepLoop_cons_ok_fst hsucc]
            exact ha
          · obtain ⟨sf, hsf1, hsf2⟩ := hb
            exact ⟨sf, by rw [sweepLoop_cons_ok_fst hsucc]; exact hsf1, hsf2⟩
      · intro rid0 hnm
        have h1 : rid0 ≠ rid := fun hc => hnm (hc ▸ List.mem_cons_self rid rest)
        have h2 : rid0 ∉ rest := fun hc => hnm (List.mem_cons_of_mem rid hc)
        rw [sweepLoop_cons_ok_fst hsucc, ih3 rid0 h2, hres2l rid0 h1]
      · intro sid s0 h0
        by_cases hss : sid = r.seatId
        · have h2 : lookupKV db2.seats sid = some (cancelBumpSeat s0) := by
            rw [hseats2l, h0]
            simp [hss]
          obtain ⟨sf, hsf1, hsf2, hsf3⟩ := ih4 sid _ h2
          refine ⟨sf, ?_, ?_, ?_⟩
          · rw [sweepLoop_cons_ok_fst hsucc]
            exact hsf1
          · rcases hsf2 with h3 | h3
            · right
              rw [h3]
              rfl
            · right
              exact h3
          · simpa [cancelBumpSeat] using hsf3
        · have h2 : lookupKV db2.seats sid = some s0 := by
            rw [hseats2l, h0]
            simp [hss]
          obtain ⟨sf, hsf1, hsf2, hsf3⟩ := ih4 sid s0 h2
          exact ⟨sf, by rw [sweepLoop_cons_ok_fst hsucc]; exact hsf1, hsf2, hsf3⟩
      · intro pid p0 h0
        have hstable : ∀ rid' ∈ rest,
            resOnPerf db2 pid rid' = resOnPerf db1 pid rid' := by
          intro rid' hm
          obtain ⟨r', seat', hr', hp', hs', hpf'⟩ :=
            hready rid' (List.mem_cons_of_mem rid hm)
          have hne : rid' ≠ rid := fun hcc => hnotin (hcc ▸ hm)
          simp only [resOnPerf, hres2l rid' hne, hr', hseats2l, hs',
            Option.map_some]
          by_cases hss : r'.seatId = r.seatId <;> simp [hss, cancelBumpSeat]
        have hcnt : rest.countP (resOnPerf db2 pid) =
            rest.countP (resOnPerf db1 pid) := countP_ext hstable
        have hcOnRid : resOnPerf db1 pid rid =
            decide (seat.performanceId = pid) := by
          simp only [resOnPerf, hr, hs]
        by_cases hpp : pid = seat.performanceId
        · have h2 : lookupKV db2.performances pid =
              some { p0 with availableSeats := p0.availableSeats + 1 } := by
            rw [hperf2l, h0]
            simp [hpp]
          have h3 := ih5 pid _ h2
          rw [sweepLoop_cons_ok_fst hsucc, h3]
          have hc : resOnPerf db1 pid rid = true := by
            rw [hcOnRid, hpp]
            simp
          rw [List.countP_cons, hcnt, hc]
          simp only [Option.some.injEq, Performance.mk.injEq]
          push_cast
          omega
        · have h2 : lookupKV db2.performances pid = some p0 := by
            rw [hperf2l, h0]
            simp [hpp]
          have h3 := ih5 pid p0 h2
          rw [sweepLoop_cons_ok_fst hsucc, h3]
          have hc : resOnPerf db1 pid rid = false := by
            rw [hcOnRid]
            simp
            intro hcc
            exact hpp hcc.symm
          rw [List.countP_cons, hcnt, hc]
          simp only [Option.some.injEq, Performance.mk.injEq]
          push_cast
          omega

/-- C7: one run of the expiry sweep cancels every durable reservation
that is PENDING with an admitted-at older than the threshold: it becomes
CANCELLED and its seat returns to AVAILABLE; each collection's
available-count increases by exactly the number of overdue reservations
on it (so by exactly one per overdue reservation); the sweep's count is
the full scan length; a per-reservation cancel failure is skipped and
the loop continues with the remaining reservations; and re-cancelling an
already-CANCELLED reservation is rejected with a Conflict, never
re-applied. -/
theorem C7_expiry_sweep (db : Db) (threshold : Nat)
    (hnd : (db.reservations.map Prod.fst).Nodup)
    (hwf : ∀ p ∈ db.reservations, p.2.status = ResStatus.PENDING →
        ∃ seat, lookupKV db.seats p.2.seatId = some seat ∧
          (lookupKV db.performances seat.performanceId).isSome) :
    (∀ p ∈ db.reservations, p.2.status = ResStatus.PENDING →
        p.2.reservedAt < threshold →
        lookupKV (expireOverdueReservations threshold db).1.reservations p.1 =
          some { p.2 with status := ResStatus.CANCELLED } ∧
        ∃ sf, lookupKV (expireOverdueReservations threshold db).1.seats
            p.2.seatId = some sf ∧ sf.status = SeatStatus.AVAILABLE)
    ∧ ((expireOverdueReservations threshold db).2 =
        (overdueIds db threshold).length)
    ∧ (∀ pid p0, lookupKV db.performances pid = some p0 →
        lookupKV (expireOverdueReservations threshold db).1.performances pid =
          some { p0 with availableSeats := p0.availableSeats +
            ((overdueIds db threshold).countP (resOnPerf db pid) : Int) })
    ∧ (∀ rid r db0, lookupKV db0.reservations rid = some r →
        r.status = ResStatus.CANCELLED →
        cancelTx rid db0 = .error (.ConflictException cancelOnlyPendingMsg))
    ∧ (∀ rid rest db0 e, cancelTx rid db0 = .error e →
        sweepLoop (rid :: rest) db0 = sweepLoop rest db0) := by
  have hsub : (overdueIds db threshold).Nodup := by
    unfold overdueIds
    exact List.Nodup.sublist
      (List.Sublist.map Prod.fst (List.filter_sublist _)) hnd
  have hready : ∀ rid ∈ overdueIds db threshold, ReadyToCancel db rid := by
    intro rid hm
    unfold overdueIds at hm
    obtain ⟨p, hpmem, hpid⟩ := List.mem_map.mp hm
    have hpmem' : p ∈ db.reservations := List.mem_of_mem_filter hpmem
    have hcond : p.2.status = ResStatus.PENDING ∧
        p.2.reservedAt < threshold := by
      simpa using List.of_mem_filter hpmem
    obtain ⟨seat, hseat, hperf⟩ := hwf p hpmem' hcond.1
    have hlook : lookupKV db.reservations p.1 = some p.2 :=
      mem_lookupKV_of_nodup hnd hpmem'
    subst hpid
    exact ⟨p.2, seat, hlook, hcond.1, hseat, hperf⟩
  obtain ⟨h1, h2, h3, h4, h5⟩ :=
    sweepLoop_spec (overdueIds db threshold) db hsub hready
  refine ⟨?_, h1, h5, ?_, ?_⟩
  · intro p hpm hpend hov
    have hmem : p.1 ∈ overdueIds db threshold := by
      unfold overdueIds
      exact List.mem_map.mpr
        ⟨p, List.mem_filter.mpr ⟨hpm, by simp [hpend, hov]⟩, rfl⟩
    exact h2 p.1 hmem p.2 (mem_lookupKV_of_nodup hnd hpm)
  · intro rid r db0 hr0 hc
    exact cancelTx_conflict_of_not_pending hr0 (by rw [hc]; simp)
  · intro rid rest db0 e hx
    exact sweepLoop_cons_error hx rest

/-- Closed witness for C7: sweeping `dbB` (one overdue PENDING
reservation) cancels it, frees its seat, restores the available-count,
and a second cancel of the same reservation is rejected. -/
theorem C7_expiry_sweep_witness :
    lookupKV (expireOverdueReservations 200 dbB).1.reservations "i1" =
      some { resA with status := ResStatus.CANCELLED } ∧
    (∃ sf, lookupKV (expireOverdueReservations 200 dbB).1.seats "s1" =
        some sf ∧ sf.status = SeatStatus.AVAILABLE) ∧
    (expireOverdueReservations 200 dbB).2 = 1 ∧
    lookupKV (expireOverdueReservations 200 dbB).1.performances "p1" =
      some { availableSeats := 10 } ∧
    cancelTx "i1" (expireOverdueReservations 200 dbB).1 =
      .error (.ConflictException cancelOnlyPendingMsg) := by
  have hnd : (dbB.reservations.map Prod.fst).Nodup := by
    simp [dbB]
  have hwf : ∀ p ∈ dbB.reservations, p.2.status = ResStatus.PENDING →
      ∃ seat, lookupKV dbB.seats p.2.seatId = some seat ∧
        (lookupKV dbB.performances seat.performanceId).isSome := by
    intro p hp _
    rcases List.mem_cons.mp hp with h1 | h1
    · subst h1
      exact ⟨seatH, rfl, rfl⟩
    · cases h1
  have h := C7_expiry_sweep dbB 200 hnd hwf
  have hov : (("i1", resA) : String × Reservation) ∈ dbB.reservations :=
    List.mem_cons_self _ _
  have hone := h.1 ("i1", resA) hov rfl (by decide)
  refine ⟨hone.1, hone.2, ?_, ?_, ?_⟩
  · rw [h.2.1]
    rfl
  · have h3 := h.2.2.1 "p1" { availableSeats := 9 } rfl
    rw [h3]
    rfl
  · exact h.2.2.2.1 "i1" { resA with status := .CANCELLED } _ hone.1 rfl

end FastPass
